import Mathlib

/-!
Shallow embedding of `main.py` of the Subdomain-Finder repository.

The program discovers subdomains of a domain through crt.sh certificate
records, probes each host over HTTP concurrently, reports progress and an
ETA after each completion, and partitions the results into online and
offline collections.

The network is modelled as an oracle `net : String → FetchOutcome` mapping
a URL to what `session.get` does there: either a response with a status
code, or a raised exception carrying its textual description (`str(e)`).
The completion order of the concurrently running probes is modelled as an
explicit list of `(subdomain, elapsed-time-at-completion)` events handed to
the scheduler; times are rationals standing in for the nonnegative reals of
`time.perf_counter`.
-/

namespace SubdomainFinder

open scoped List

/-- What the transport layer does for one request: either a response with a
status code, or a raised exception whose `str(e)` is `msg`. -/
inductive FetchOutcome where
  | response (status : Nat)
  | failure (msg : String)
deriving DecidableEq

/-- The dictionary built by `check_subdomain`:
`{"Subdomain": ..., "Status": ..., "Error": ...}`. -/
structure ProbeResult where
  Subdomain : String
  Status : String
  Error : String
deriving DecidableEq

/-- `session.get(url, timeout=3)` seen from the caller: a status code, or a
raised exception (`Except.error` carries `str(e)`). -/
def session_get (net : String → FetchOutcome) (url : String) : Except String Nat :=
  match net url with
  | .response status => .ok status
  | .failure msg => .error msg

/-- `check_subdomain` (main.py lines 8-20): build `http://{subdomain}`,
issue the GET inside `try`, classify by status code, and turn any raised
exception into a `Down (Error)` result carrying `str(e)`. -/
def check_subdomain (net : String → FetchOutcome) (subdomain : String) : ProbeResult :=
  let url := "http://" ++ subdomain
  match session_get net url with
  | .ok status =>
      if status < 400 then
        ⟨subdomain, "Live (" ++ Nat.repr status ++ ")", ""⟩
      else
        ⟨subdomain, "Down (" ++ Nat.repr status ++ ")", "HTTP Error " ++ Nat.repr status⟩
  | .error e => ⟨subdomain, "Down (Error)", e⟩

/-- Python's `needle in hay` on strings: substring containment. -/
def pyIn (needle hay : String) : Bool :=
  decide (needle.data <:+: hay.data)

/-- One progress-callback invocation of `perform_http_checks`, together
with the loop state (`tasks_completed`, `total`) at that invocation.  The
callback itself receives `(progress_value, eta)`. -/
structure ProgressCall where
  tasks_completed : Nat
  total : Nat
  progress_value : ℚ
  eta : ℚ
deriving DecidableEq

/-- `perform_http_checks` (main.py lines 22-42): one task per subdomain,
results appended in completion order; after the i-th completion (1-based)
the callback receives `tasks_completed / total` and
`eta = (elapsed / tasks_completed) * (total - tasks_completed)`.
`completions` is the completion-ordered stream of `(subdomain, elapsed)`
events produced by `asyncio.as_completed`. -/
def perform_http_checks (net : String → FetchOutcome) (subdomain_list : List String)
    (completions : List (String × ℚ)) : List ProbeResult × List ProgressCall :=
  let total := subdomain_list.length
  (completions.map (fun p => check_subdomain net p.1),
   completions.enum.map (fun q =>
     let tasks_completed : Nat := q.1 + 1
     let elapsed := q.2.2
     let avg_time := elapsed / (tasks_completed : ℚ)
     let remaining_tasks := total - tasks_completed
     ⟨tasks_completed, total, (tasks_completed : ℚ) / (total : ℚ),
      avg_time * (remaining_tasks : ℚ)⟩))

/-- One row of the online table: main.py line 80 keeps only
`Subdomain` and `Status` for online results. -/
structure OnlineRow where
  Subdomain : String
  Status : String
deriving DecidableEq

/-- main.py lines 80-81: `[{...} for res in results if "Live" in res["Status"]]`. -/
def online_results (results : List ProbeResult) : List OnlineRow :=
  (results.filter (fun res => pyIn "Live" res.Status)).map
    (fun res => ⟨res.Subdomain, res.Status⟩)

/-- main.py line 82: `[res for res in results if "Down" in res["Status"]]`. -/
def offline_results (results : List ProbeResult) : List ProbeResult :=
  results.filter (fun res => pyIn "Down" res.Status)

/-- One crt.sh record as the code reads it: `entry.get("name_value", "")`,
so the field may be absent. -/
structure CrtshRecord where
  name_value : Option String
deriving DecidableEq

/-- Python `str.splitlines` restricted to the line boundaries `\n`, `\r`
and `\r\n` (the separators occurring in crt.sh `name_value` data): split at
each boundary, no trailing empty line for a trailing boundary, empty string
gives no lines. -/
def splitlinesAux : List Char → List Char → List String
  | [], acc => if acc.isEmpty then [] else [⟨acc.reverse⟩]
  | '\r' :: '\n' :: rest, acc => (⟨acc.reverse⟩ : String) :: splitlinesAux rest []
  | '\r' :: rest, acc => (⟨acc.reverse⟩ : String) :: splitlinesAux rest []
  | '\n' :: rest, acc => (⟨acc.reverse⟩ : String) :: splitlinesAux rest []
  | cs :: rest, acc => splitlinesAux rest (cs :: acc)

/-- Python `s.splitlines()`. -/
def pySplitlines (s : String) : List String :=
  splitlinesAux s.data []

/-- Python `s.strip()`: drop whitespace from both ends. -/
def pyStrip (s : String) : String :=
  ⟨((s.data.dropWhile Char.isWhitespace).reverse.dropWhile Char.isWhitespace).reverse⟩

/-- Python `s.endswith(suf)`: case-sensitive suffix test. -/
def pyEndswith (s suf : String) : Bool :=
  suf.data.isSuffixOf s.data

/-- main.py lines 58-66: the hostname set builder.  `subdomains = set()`
is modelled as a duplicate-free list with idempotent insertion; for each
entry, `name_value` (default `""`) is split on newlines, each name is
stripped, and kept when the domain is a suffix. -/
def build_hostnames (data : List CrtshRecord) (domain : String) : List String :=
  data.foldl (fun acc entry =>
    (pySplitlines (entry.name_value.getD "")).foldl (fun acc2 raw =>
      let sub := pyStrip raw
      if pyEndswith sub domain then
        (if sub ∈ acc2 then acc2 else acc2 ++ [sub])
      else acc2) acc) []

/-- How a run of `main` ends after the crt.sh lookup succeeded: either the
early `st.error(...); return` on empty data, or the full partition. -/
inductive RunOutcome where
  | sourceError (msg : String)
  | completed (online : List OnlineRow) (offline : List ProbeResult)
deriving DecidableEq

/-- The message of main.py line 55. -/
def no_data_message : String :=
  "No data returned from crt.sh. The domain may not have any certificate records or the API might be unavailable."

/-- main.py lines 49-110 after `crtsh.search(domain)` returned `data`:
empty data aborts the run with the no-data message before any probe is
issued; otherwise the hostname set is built, probed, and partitioned.
The second component lists the hostnames actually probed. -/
def main_run (domain : String) (data : List CrtshRecord) (net : String → FetchOutcome)
    (completions : List (String × ℚ)) : RunOutcome × List String :=
  if data.isEmpty then (.sourceError no_data_message, [])
  else
    let subdomain_list := build_hostnames data domain
    let results := (perform_http_checks net subdomain_list completions).1
    (.completed (online_results results) (offline_results results),
     completions.map Prod.fst)

/-! ### Helper lemmas -/

/-- Every digit character is a decimal digit. -/
theorem digitChar_isDigit : ∀ m, m < 10 → (Nat.digitChar m).isDigit = true := by decide

/-- `Nat.toDigitsCore` at base 10 only ever emits decimal digits. -/
theorem toDigitsCore_isDigit (fuel : Nat) :
    ∀ (n : Nat) (ds : List Char), (∀ cs ∈ ds, cs.isDigit = true) →
      ∀ cs ∈ Nat.toDigitsCore 10 fuel n ds, cs.isDigit = true := by
  induction fuel with
  | zero => intro n ds hds cs hc; exact hds cs hc
  | succ fuel ih =>
    intro n ds hds cs hc
    have hd : (Nat.digitChar (n % 10)).isDigit = true :=
      digitChar_isDigit _ (Nat.mod_lt _ (by decide))
    have hcons : ∀ x ∈ Nat.digitChar (n % 10) :: ds, x.isDigit = true := by
      intro x hx
      rcases List.mem_cons.mp hx with h | h
      · exact h ▸ hd
      · exact hds x h
    rw [Nat.toDigitsCore] at hc
    by_cases h0 : n / 10 = 0
    · rw [if_pos h0] at hc
      exact hcons cs hc
    · rw [if_neg h0] at hc
      exact ih (n / 10) _ hcons cs hc

/-- Every character of the decimal rendering of a natural number is a
decimal digit. -/
theorem repr_isDigit (n : Nat) : ∀ cs ∈ (Nat.repr n).data, cs.isDigit = true := by
  intro cs hc
  exact toDigitsCore_isDigit (n + 1) n [] (by intro x hx; cases hx) cs hc

theorem pyIn_iff {needle hay : String} : pyIn needle hay = true ↔ needle.data <:+: hay.data := by
  simp [pyIn]

theorem pyIn_of_prefix {needle hay : String} (h : needle.data <+: hay.data) :
    pyIn needle hay = true :=
  pyIn_iff.mpr h.isInfix

theorem mem_of_pyIn {needle hay : String} (h : pyIn needle hay = true) :
    ∀ cs ∈ needle.data, cs ∈ hay.data :=
  fun _ hc => (pyIn_iff.mp h).subset hc

theorem pyIn_eq_false {needle hay : String} (cs : Char) (hc : cs ∈ needle.data)
    (hhay : cs ∉ hay.data) : pyIn needle hay = false := by
  cases h : pyIn needle hay with
  | false => rfl
  | true => exact absurd (mem_of_pyIn h cs hc) hhay

theorem pyIn_live_liveStatus (n : Nat) :
    pyIn "Live" ("Live (" ++ Nat.repr n ++ ")") = true := by
  apply pyIn_of_prefix
  refine ⟨[' ', '('] ++ (Nat.repr n).data ++ [')'], ?_⟩
  rw [String.data_append, String.data_append]
  have h1 : ("Live (" : String).data = ("Live" : String).data ++ [' ', '('] := rfl
  have h2 : (")" : String).data = [')'] := rfl
  rw [h1, h2]
  simp

theorem pyIn_down_downStatus (n : Nat) :
    pyIn "Down" ("Down (" ++ Nat.repr n ++ ")") = true := by
  apply pyIn_of_prefix
  refine ⟨[' ', '('] ++ (Nat.repr n).data ++ [')'], ?_⟩
  rw [String.data_append, String.data_append]
  have h1 : ("Down (" : String).data = ("Down" : String).data ++ [' ', '('] := rfl
  have h2 : (")" : String).data = [')'] := rfl
  rw [h1, h2]
  simp

theorem pyIn_down_liveStatus (n : Nat) :
    pyIn "Down" ("Live (" ++ Nat.repr n ++ ")") = false := by
  apply pyIn_eq_false 'D' (by decide)
  intro hmem
  rw [String.data_append, String.data_append] at hmem
  rcases List.mem_append.mp hmem with h | h
  · rcases List.mem_append.mp h with h' | h'
    · exact absurd h' (by decide)
    · have := repr_isDigit n 'D' h'
      exact absurd this (by decide)
  · exact absurd h (by decide)

theorem pyIn_live_downStatus (n : Nat) :
    pyIn "Live" ("Down (" ++ Nat.repr n ++ ")") = false := by
  apply pyIn_eq_false 'L' (by decide)
  intro hmem
  rw [String.data_append, String.data_append] at hmem
  rcases List.mem_append.mp hmem with h | h
  · rcases List.mem_append.mp h with h' | h'
    · exact absurd h' (by decide)
    · have := repr_isDigit n 'L' h'
      exact absurd this (by decide)
  · exact absurd h (by decide)

/-- `check_subdomain` with the `let` unfolded. -/
theorem check_subdomain_eq (net : String → FetchOutcome) (s : String) :
    check_subdomain net s =
      match session_get net ("http://" ++ s) with
      | .ok status =>
          if status < 400 then ⟨s, "Live (" ++ Nat.repr status ++ ")", ""⟩
          else ⟨s, "Down (" ++ Nat.repr status ++ ")", "HTTP Error " ++ Nat.repr status⟩
      | .error e => ⟨s, "Down (Error)", e⟩ := rfl

/-- Every probe result carries the probed hostname. -/
theorem check_subdomain_Subdomain (net : String → FetchOutcome) (s : String) :
    (check_subdomain net s).Subdomain = s := by
  rw [check_subdomain_eq]
  cases session_get net ("http://" ++ s) with
  | ok status => by_cases h : status < 400 <;> simp [h]
  | error e => rfl

/-- On every probe result, main.py's offline test `"Down" in Status` is the
boolean negation of the online test `"Live" in Status`. -/
theorem check_down_eq_not_live (net : String → FetchOutcome) (s : String) :
    pyIn "Down" (check_subdomain net s).Status =
      !(pyIn "Live" (check_subdomain net s).Status) := by
  rw [check_subdomain_eq]
  cases session_get net ("http://" ++ s) with
  | ok status =>
    by_cases h : status < 400 <;>
      simp [h, pyIn_live_liveStatus, pyIn_down_liveStatus,
            pyIn_down_downStatus, pyIn_live_downStatus]
  | error e => simp [show pyIn "Down" "Down (Error)" = true from by decide,
                     show pyIn "Live" "Down (Error)" = false from by decide]

/-! ### Claims -/

/-- C2: if a response arrives with status `< 400` the result is
`Live (code)` with empty error detail; with status `≥ 400` it is
`Down (code)` with error detail `HTTP Error {code}`; and on a transport
failure it is `Down (Error)` with the failure's textual description. -/
theorem C2_probe_classification (net : String → FetchOutcome) (sub : String) :
    (∀ status : Nat, net ("http://" ++ sub) = .response status → status < 400 →
        check_subdomain net sub = ⟨sub, "Live (" ++ Nat.repr status ++ ")", ""⟩) ∧
    (∀ status : Nat, net ("http://" ++ sub) = .response status → 400 ≤ status →
        check_subdomain net sub =
          ⟨sub, "Down (" ++ Nat.repr status ++ ")", "HTTP Error " ++ Nat.repr status⟩) ∧
    (∀ msg : String, net ("http://" ++ sub) = .failure msg →
        check_subdomain net sub = ⟨sub, "Down (Error)", msg⟩) := by
  refine ⟨?_, ?_, ?_⟩
  · intro status hnet hlt
    rw [check_subdomain_eq]
    simp [session_get, hnet, hlt]
  · intro status hnet hge
    rw [check_subdomain_eq]
    simp [session_get, hnet, Nat.not_lt.mpr hge]
  · intro msg hnet
    rw [check_subdomain_eq]
    simp [session_get, hnet]

/-- C2 witness: the three classification cases at status 200, status 404
and a failure with description `boom`. -/
theorem C2_probe_classification_witness :
    check_subdomain (fun _ => .response 200) "x.example.com" =
      ⟨"x.example.com", "Live (200)", ""⟩ ∧
    check_subdomain (fun _ => .response 404) "x.example.com" =
      ⟨"x.example.com", "Down (404)", "HTTP Error 404"⟩ ∧
    check_subdomain (fun _ => .failure "boom") "x.example.com" =
      ⟨"x.example.com", "Down (Error)", "boom"⟩ := by
  refine ⟨?_, ?_, ?_⟩
  · exact (C2_probe_classification (fun _ => .response 200) "x.example.com").1 200 rfl
      (by decide)
  · exact (C2_probe_classification (fun _ => .response 404) "x.example.com").2.1 404 rfl
      (by decide)
  · exact (C2_probe_classification (fun _ => .failure "boom") "x.example.com").2.2 "boom" rfl

/-- C3: the probe task is total — for every network behaviour it returns a
`ProbeResult` for the probed hostname, and in particular a raised transport
exception is absorbed into a `Down (Error)` result rather than propagated. -/
theorem C3_probe_never_throws (net : String → FetchOutcome) (sub : String) :
    (∃ r : ProbeResult, check_subdomain net sub = r ∧ r.Subdomain = sub) ∧
    (∀ e : String, session_get net ("http://" ++ sub) = .error e →
        check_subdomain net sub = ⟨sub, "Down (Error)", e⟩) := by
  constructor
  · exact ⟨check_subdomain net sub, rfl, check_subdomain_Subdomain net sub⟩
  · intro e he
    rw [check_subdomain_eq, he]

/-- C3 witness: a probe whose GET raises returns the handled result. -/
theorem C3_probe_never_throws_witness :
    check_subdomain (fun _ => .failure "oops") "y.example.com" =
      ⟨"y.example.com", "Down (Error)", "oops"⟩ :=
  (C3_probe_never_throws (fun _ => .failure "oops") "y.example.com").2 "oops" rfl

/-- C7 counterexample: a transport failure whose textual description is
empty — which is exactly what Python's `TimeoutError` stringifies to — is
classified `Down (Error)` but with an EMPTY `Error` field, refuting the
claimed non-emptiness of the error detail. -/
theorem C7_counterexample :
    (check_subdomain (fun _ => FetchOutcome.failure "") "a.example.com").Status
        = "Down (Error)" ∧
    (check_subdomain (fun _ => FetchOutcome.failure "") "a.example.com").Error = "" := by
  exact ⟨rfl, rfl⟩

/-- C7 (amended): a probe ending in a timeout (a transport failure) yields
outcome Down with no status code and error detail equal to the failure's
textual description — which may be empty. -/
theorem C7_timeout_is_down (net : String → FetchOutcome) (sub msg : String)
    (h : net ("http://" ++ sub) = .failure msg) :
    check_subdomain net sub = ⟨sub, "Down (Error)", msg⟩ := by
  rw [check_subdomain_eq]
  simp [session_get, h]

/-- C7 witness: a timeout with description `timed out` on a concrete host. -/
theorem C7_timeout_is_down_witness :
    check_subdomain (fun _ => .failure "timed out") "b.example.com" =
      ⟨"b.example.com", "Down (Error)", "timed out"⟩ :=
  C7_timeout_is_down (fun _ => .failure "timed out") "b.example.com" "timed out" rfl

/-- The hostnames of the online rows followed by the hostnames of the
offline results are a permutation of the hostnames of the result stream,
for any result stream on which the two substring tests are complementary. -/
theorem partition_hosts_perm (results : List ProbeResult)
    (hc : ∀ r ∈ results, pyIn "Down" r.Status = !(pyIn "Live" r.Status)) :
    (online_results results).map OnlineRow.Subdomain
        ++ (offline_results results).map ProbeResult.Subdomain
      ~ results.map ProbeResult.Subdomain := by
  have hon : (online_results results).map OnlineRow.Subdomain
      = (results.filter (fun res => pyIn "Live" res.Status)).map ProbeResult.Subdomain := by
    simp [online_results, List.map_map]
  have hoff : offline_results results
      = results.filter (fun res => !(pyIn "Live" res.Status)) := by
    exact List.filter_congr (fun r hr => hc r hr)
  rw [hon, hoff, ← List.map_append]
  exact (List.filter_append_perm _ results).map ProbeResult.Subdomain

/-- C1: over any run, online count plus offline count equals the size of
the input hostname set, no hostname is in both collections, and every
input hostname lands in exactly one of the two. -/
theorem C1_partition_exact (net : String → FetchOutcome) (l : List String)
    (cs : List (String × ℚ)) (hperm : cs.map Prod.fst ~ l) (hnodup : l.Nodup) :
    ((online_results (perform_http_checks net l cs).1).length
        + (offline_results (perform_http_checks net l cs).1).length = l.length) ∧
    (∀ s : String,
      ¬(s ∈ (online_results (perform_http_checks net l cs).1).map OnlineRow.Subdomain ∧
        s ∈ (offline_results (perform_http_checks net l cs).1).map ProbeResult.Subdomain)) ∧
    (∀ s ∈ l,
      (s ∈ (online_results (perform_http_checks net l cs).1).map OnlineRow.Subdomain ∧
        s ∉ (offline_results (perform_http_checks net l cs).1).map ProbeResult.Subdomain) ∨
      (s ∉ (online_results (perform_http_checks net l cs).1).map OnlineRow.Subdomain ∧
        s ∈ (offline_results (perform_http_checks net l cs).1).map ProbeResult.Subdomain)) := by
  have hres : (perform_http_checks net l cs).1
      = cs.map (fun p => check_subdomain net p.1) := rfl
  have hcomp : ∀ r ∈ (perform_http_checks net l cs).1,
      pyIn "Down" r.Status = !(pyIn "Live" r.Status) := by
    intro r hr
    rw [hres] at hr
    rcases List.mem_map.mp hr with ⟨p, _, hp⟩
    exact hp ▸ check_down_eq_not_live net p.1
  have hmapsub : (perform_http_checks net l cs).1.map ProbeResult.Subdomain ~ l := by
    rw [hres, List.map_map]
    have : (ProbeResult.Subdomain ∘ fun p : String × ℚ => check_subdomain net p.1)
        = Prod.fst := by
      funext p
      exact check_subdomain_Subdomain net p.1
    rw [this]
    exact hperm
  have hperm2 := (partition_hosts_perm (perform_http_checks net l cs).1 hcomp).trans hmapsub
  have hnd2 : ((online_results (perform_http_checks net l cs).1).map OnlineRow.Subdomain
      ++ (offline_results (perform_http_checks net l cs).1).map ProbeResult.Subdomain).Nodup :=
    hperm2.nodup_iff.mpr hnodup
  rcases List.nodup_append.mp hnd2 with ⟨_, _, hdisj⟩
  refine ⟨?_, ?_, ?_⟩
  · have := hperm2.length_eq
    simpa [online_results, offline_results] using this
  · intro s ⟨hs1, hs2⟩
    exact hdisj hs1 hs2
  · intro s hs
    have : s ∈ (online_results (perform_http_checks net l cs).1).map OnlineRow.Subdomain
        ++ (offline_results (perform_http_checks net l cs).1).map ProbeResult.Subdomain :=
      hperm2.mem_iff.mpr hs
    rcases List.mem_append.mp this with h | h
    · exact Or.inl ⟨h, fun h2 => hdisj h h2⟩
    · exact Or.inr ⟨fun h1 => hdisj h1 h, h⟩

/-- C1 witness: two hostnames, one live and one failing, completing in
reverse submission order. -/
theorem C1_partition_exact_witness :
    ((online_results (perform_http_checks
        (fun u => if u = "http://a.example.com" then .response 200 else .failure "refused")
        ["a.example.com", "b.example.com"]
        [("b.example.com", 1), ("a.example.com", 2)]).1).length
      + (offline_results (perform_http_checks
        (fun u => if u = "http://a.example.com" then .response 200 else .failure "refused")
        ["a.example.com", "b.example.com"]
        [("b.example.com", 1), ("a.example.com", 2)]).1).length = 2) ∧
    (∀ s : String, ¬(s ∈ (online_results (perform_http_checks
        (fun u => if u = "http://a.example.com" then .response 200 else .failure "refused")
        ["a.example.com", "b.example.com"]
        [("b.example.com", 1), ("a.example.com", 2)]).1).map OnlineRow.Subdomain ∧
      s ∈ (offline_results (perform_http_checks
        (fun u => if u = "http://a.example.com" then .response 200 else .failure "refused")
        ["a.example.com", "b.example.com"]
        [("b.example.com", 1), ("a.example.com", 2)]).1).map ProbeResult.Subdomain)) ∧
    (∀ s ∈ ["a.example.com", "b.example.com"],
      (s ∈ (online_results (perform_http_checks
        (fun u => if u = "http://a.example.com" then .response 200 else .failure "refused")
        ["a.example.com", "b.example.com"]
        [("b.example.com", 1), ("a.example.com", 2)]).1).map OnlineRow.Subdomain ∧
        s ∉ (offline_results (perform_http_checks
        (fun u => if u = "http://a.example.com" then .response 200 else .failure "refused")
        ["a.example.com", "b.example.com"]
        [("b.example.com", 1), ("a.example.com", 2)]).1).map ProbeResult.Subdomain) ∨
      (s ∉ (online_results (perform_http_checks
        (fun u => if u = "http://a.example.com" then .response 200 else .failure "refused")
        ["a.example.com", "b.example.com"]
        [("b.example.com", 1), ("a.example.com", 2)]).1).map OnlineRow.Subdomain ∧
        s ∈ (offline_results (perform_http_checks
        (fun u => if u = "http://a.example.com" then .response 200 else .failure "refused")
        ["a.example.com", "b.example.com"]
        [("b.example.com", 1), ("a.example.com", 2)]).1).map ProbeResult.Subdomain)) := by
  have h2 : (["a.example.com", "b.example.com"] : List String).length = 2 := rfl
  have := C1_partition_exact
    (fun u => if u = "http://a.example.com" then .response 200 else .failure "refused")
    ["a.example.com", "b.example.com"]
    [("b.example.com", 1), ("a.example.com", 2)]
    (by decide) (by decide)
  rw [h2] at this
  exact this

/-- The loop-state counters of the progress trace are `1, 2, ..., |cs|`. -/
theorem trace_map_tasks_completed (net : String → FetchOutcome) (l : List String)
    (cs : List (String × ℚ)) :
    (perform_http_checks net l cs).2.map ProgressCall.tasks_completed
      = List.range' 1 cs.length := by
  show (cs.enum.map _).map ProgressCall.tasks_completed = _
  rw [List.map_map]
  rw [show (ProgressCall.tasks_completed ∘ fun q : Nat × (String × ℚ) =>
      (⟨q.1 + 1, l.length, ((q.1 + 1 : Nat) : ℚ) / (l.length : ℚ),
        q.2.2 / ((q.1 + 1 : Nat) : ℚ) * ((l.length - (q.1 + 1) : Nat) : ℚ)⟩ : ProgressCall))
    = ((fun i => i + 1) ∘ Prod.fst) from rfl]
  rw [← List.map_map, List.enum_map_fst, List.range'_eq_map_range]
  exact List.map_congr_left (fun a _ => Nat.add_comm a 1)

/-- The i-th progress-callback invocation, as the code computes it. -/
theorem trace_getElem? (net : String → FetchOutcome) (l : List String)
    (cs : List (String × ℚ)) (i : Nat) :
    (perform_http_checks net l cs).2[i]?
      = cs[i]?.map (fun p =>
          (⟨i + 1, l.length, ((i + 1 : Nat) : ℚ) / (l.length : ℚ),
            p.2 / ((i + 1 : Nat) : ℚ) * ((l.length - (i + 1) : Nat) : ℚ)⟩ : ProgressCall)) := by
  show (cs.enum.map _)[i]? = _
  rw [List.getElem?_map, List.getElem?_enum]
  cases cs[i]? <;> rfl

/-- The callback fires once per completion event. -/
theorem trace_length (net : String → FetchOutcome) (l : List String)
    (cs : List (String × ℚ)) :
    (perform_http_checks net l cs).2.length = cs.length := by
  show (cs.enum.map _).length = cs.length
  rw [List.length_map, List.enum_length]

/-- C4: across a run's callback invocations the completed-task counter is
non-decreasing, the callback fires exactly once per task, and the counter
reaches the total exactly once — at the final invocation, whose progress
fraction is 1. -/
theorem C4_progress_monotone (net : String → FetchOutcome) (l : List String)
    (cs : List (String × ℚ)) (hperm : cs.map Prod.fst ~ l) (hne : l ≠ []) :
    ((perform_http_checks net l cs).2.map ProgressCall.tasks_completed).Pairwise (· ≤ ·) ∧
    (perform_http_checks net l cs).2.length = l.length ∧
    ((perform_http_checks net l cs).2.map ProgressCall.tasks_completed).count l.length = 1 ∧
    (∃ pc : ProgressCall, (perform_http_checks net l cs).2.getLast? = some pc ∧
      pc.tasks_completed = l.length ∧ pc.progress_value = 1) := by
  have hn : 0 < l.length := List.length_pos.mpr hne
  have hlen : cs.length = l.length := by
    have := hperm.length_eq
    simpa using this
  refine ⟨?_, ?_, ?_, ?_⟩
  · rw [trace_map_tasks_completed]
    exact (List.pairwise_lt_range' 1 cs.length).imp Nat.le_of_lt
  · rw [trace_length, hlen]
  · rw [trace_map_tasks_completed, hlen]
    exact List.count_eq_one_of_mem (List.nodup_range' 1 l.length)
      (List.mem_range'_1.mpr ⟨hn, by omega⟩)
  · have hidx : l.length - 1 < cs.length := by omega
    obtain ⟨x, hx⟩ : ∃ x, cs[l.length - 1]? = some x :=
      ⟨_, List.getElem?_eq_getElem hidx⟩
    rw [List.getLast?_eq_getElem?, trace_length, hlen,
        trace_getElem? net l cs (l.length - 1), hx]
    refine ⟨_, rfl, ?_, ?_⟩
    · show l.length - 1 + 1 = l.length
      omega
    · show ((l.length - 1 + 1 : Nat) : ℚ) / (l.length : ℚ) = 1
      rw [show l.length - 1 + 1 = l.length from by omega]
      exact div_self (by exact_mod_cast hn.ne')

/-- C4 witness: two tasks completing at elapsed times 1 and 2. -/
theorem C4_progress_monotone_witness :
    ((perform_http_checks (fun _ => .response 200) ["a", "b"]
        [("b", 1), ("a", 2)]).2.map ProgressCall.tasks_completed).Pairwise (· ≤ ·) ∧
    (perform_http_checks (fun _ => .response 200) ["a", "b"]
        [("b", 1), ("a", 2)]).2.length = 2 ∧
    ((perform_http_checks (fun _ => .response 200) ["a", "b"]
        [("b", 1), ("a", 2)]).2.map ProgressCall.tasks_completed).count 2 = 1 ∧
    (∃ pc : ProgressCall,
      (perform_http_checks (fun _ => .response 200) ["a", "b"]
        [("b", 1), ("a", 2)]).2.getLast? = some pc ∧
      pc.tasks_completed = 2 ∧ pc.progress_value = 1) := by
  have h2 : (["a", "b"] : List String).length = 2 := rfl
  have := C4_progress_monotone (fun _ => .response 200) ["a", "b"]
    [("b", 1), ("a", 2)] (by decide) (by decide)
  rw [h2] at this
  exact this

/-- C5: the ETA handed to the callback at 1-based completion step `i + 1`
is `elapsed / (i + 1) * (total - (i + 1))`, and at the last step — when
the counter equals the total — it is 0. -/
theorem C5_eta_formula (net : String → FetchOutcome) (l : List String)
    (cs : List (String × ℚ)) (hperm : cs.map Prod.fst ~ l) (i : Nat) (hi : i < cs.length) :
    ∃ pc : ProgressCall, (perform_http_checks net l cs).2[i]? = some pc ∧
      pc.eta = (cs.get ⟨i, hi⟩).2 / ((i + 1 : Nat) : ℚ) * ((l.length - (i + 1) : Nat) : ℚ) ∧
      (i + 1 = l.length → pc.eta = 0) := by
  have hx : cs[i]? = some (cs.get ⟨i, hi⟩) := List.getElem?_eq_getElem hi
  rw [trace_getElem?, hx]
  refine ⟨_, rfl, rfl, ?_⟩
  intro hlast
  show (cs.get ⟨i, hi⟩).2 / ((i + 1 : Nat) : ℚ) * ((l.length - (i + 1) : Nat) : ℚ) = 0
  rw [hlast, Nat.sub_self]
  simp

/-- C5 witness: at the second of two completions the ETA is exactly 0, and
at the first it is `(1 / 1) * (2 - 1) = 1`. -/
theorem C5_eta_formula_witness :
    ∃ pc : ProgressCall,
      (perform_http_checks (fun _ => .response 200) ["a", "b"]
        [("b", 1), ("a", 2)]).2[1]? = some pc ∧
      pc.eta = ((2 : ℚ) / ((1 + 1 : Nat) : ℚ))
          * (((["a", "b"] : List String).length - (1 + 1) : Nat) : ℚ) ∧
      (1 + 1 = (["a", "b"] : List String).length → pc.eta = 0) := by
  exact C5_eta_formula (fun _ => .response 200) ["a", "b"]
    [("b", 1), ("a", 2)] (by decide) 1 (by decide)

/-- Membership after folding one record's names over the accumulating set:
an element is there iff it was there before, or it is the stripped form of
one of the names and the domain is its suffix. -/
theorem mem_foldl_names (domain : String) (names : List String) :
    ∀ (acc : List String) (x : String),
      x ∈ names.foldl (fun acc2 raw =>
          let sub := pyStrip raw
          if pyEndswith sub domain then
            (if sub ∈ acc2 then acc2 else acc2 ++ [sub])
          else acc2) acc
        ↔ x ∈ acc ∨ ∃ raw ∈ names, pyStrip raw = x ∧ pyEndswith x domain = true := by
  induction names with
  | nil => intro acc x; simp
  | cons raw names ih =>
    intro acc x
    rw [List.foldl_cons, ih]
    constructor
    · rintro (hx | hx)
      · by_cases hend : pyEndswith (pyStrip raw) domain
        · rw [if_pos hend] at hx
          by_cases hmem : pyStrip raw ∈ acc
          · rw [if_pos hmem] at hx
            exact Or.inl hx
          · rw [if_neg hmem] at hx
            rcases List.mem_append.mp hx with h | h
            · exact Or.inl h
            · rcases List.mem_singleton.mp h with rfl
              exact Or.inr ⟨raw, List.mem_cons_self raw names, rfl, hend⟩
        · rw [if_neg hend] at hx
          exact Or.inl hx
      · rcases hx with ⟨raw', hraw', hx⟩
        exact Or.inr ⟨raw', List.mem_cons_of_mem raw hraw', hx⟩
    · rintro (hx | ⟨raw', hraw', hstrip, hend⟩)
      · left
        by_cases hend : pyEndswith (pyStrip raw) domain
        · rw [if_pos hend]
          by_cases hmem : pyStrip raw ∈ acc
          · rw [if_pos hmem]; exact hx
          · rw [if_neg hmem]
            exact List.mem_append_left _ hx
        · rw [if_neg hend]; exact hx
      · rcases List.mem_cons.mp hraw' with rfl | hmem'
        · left
          rw [hstrip, if_pos hend]
          by_cases hmem : x ∈ acc
          · rw [if_pos hmem]; exact hmem
          · rw [if_neg hmem]
            exact List.mem_append_right _ (List.mem_singleton.mpr rfl)
        · exact Or.inr ⟨raw', hmem', hstrip, hend⟩

/-- Folding one record's names over a duplicate-free set keeps it
duplicate-free. -/
theorem nodup_foldl_names (domain : String) (names : List String) :
    ∀ acc : List String, acc.Nodup →
      (names.foldl (fun acc2 raw =>
          let sub := pyStrip raw
          if pyEndswith sub domain then
            (if sub ∈ acc2 then acc2 else acc2 ++ [sub])
          else acc2) acc).Nodup := by
  induction names with
  | nil => intro acc h; exact h
  | cons raw names ih =>
    intro acc hacc
    rw [List.foldl_cons]
    apply ih
    by_cases hend : pyEndswith (pyStrip raw) domain
    · rw [if_pos hend]
      by_cases hmem : pyStrip raw ∈ acc
      · rw [if_pos hmem]; exact hacc
      · rw [if_neg hmem]
        exact ((List.perm_append_singleton _ _).nodup_iff).mpr
          (List.nodup_cons.mpr ⟨hmem, hacc⟩)
    · rw [if_neg hend]; exact hacc

/-- Membership in the hostname builder's fold from any accumulator. -/
theorem mem_build_aux (domain : String) (data : List CrtshRecord) :
    ∀ (acc : List String) (x : String),
      x ∈ data.foldl (fun acc entry =>
          (pySplitlines (entry.name_value.getD "")).foldl (fun acc2 raw =>
            let sub := pyStrip raw
            if pyEndswith sub domain then
              (if sub ∈ acc2 then acc2 else acc2 ++ [sub])
            else acc2) acc) acc
        ↔ x ∈ acc ∨ ∃ e ∈ data, ∃ raw ∈ pySplitlines (e.name_value.getD ""),
            pyStrip raw = x ∧ pyEndswith x domain = true := by
  induction data with
  | nil => intro acc x; simp
  | cons e data ih =>
    intro acc x
    rw [List.foldl_cons, ih, mem_foldl_names]
    constructor
    · rintro ((hx | ⟨raw, hraw, hx⟩) | ⟨e', he', hx⟩)
      · exact Or.inl hx
      · exact Or.inr ⟨e, List.mem_cons_self e data, raw, hraw, hx⟩
      · exact Or.inr ⟨e', List.mem_cons_of_mem e he', hx⟩
    · rintro (hx | ⟨e', he', hx⟩)
      · exact Or.inl (Or.inl hx)
      · rcases List.mem_cons.mp he' with rfl | hmem
        · exact Or.inl (Or.inr hx)
        · exact Or.inr ⟨e', hmem, hx⟩

/-- C6: the hostname set builder returns exactly the deduplicated set of
newline-split, whitespace-stripped `name_value` entries of which the domain
is a case-sensitive suffix; on the records
`["a.example.com\nb.example.com", "c.other.com"]` with domain
`example.com` it returns exactly `{a.example.com, b.example.com}`. -/
theorem C6_hostname_set_builder (data : List CrtshRecord) (domain : String) :
    (∀ x : String, x ∈ build_hostnames data domain ↔
        ∃ e ∈ data, ∃ raw ∈ pySplitlines (e.name_value.getD ""),
          pyStrip raw = x ∧ pyEndswith x domain = true) ∧
    (build_hostnames data domain).Nodup ∧
    (∀ x : String,
        x ∈ build_hostnames
            [⟨some "a.example.com\nb.example.com"⟩, ⟨some "c.other.com"⟩] "example.com"
          ↔ (x = "a.example.com" ∨ x = "b.example.com")) := by
  refine ⟨?_, ?_, ?_⟩
  · intro x
    unfold build_hostnames
    rw [mem_build_aux]
    simp
  · have : ∀ (d : List CrtshRecord) (acc : List String), acc.Nodup →
        (d.foldl (fun acc entry =>
          (pySplitlines (entry.name_value.getD "")).foldl (fun acc2 raw =>
            let sub := pyStrip raw
            if pyEndswith sub domain then
              (if sub ∈ acc2 then acc2 else acc2 ++ [sub])
            else acc2) acc) acc).Nodup := by
      intro d
      induction d with
      | nil => intro acc h; exact h
      | cons e d ih =>
        intro acc hacc
        rw [List.foldl_cons]
        exact ih _ (nodup_foldl_names domain _ acc hacc)
    exact this data [] List.nodup_nil
  · intro x
    rw [show build_hostnames
        [⟨some "a.example.com\nb.example.com"⟩, ⟨some "c.other.com"⟩] "example.com"
      = ["a.example.com", "b.example.com"] from by decide]
    simp

/-- C10: a record with no `name_value`, or with an empty one, contributes
no hostnames: removing it from anywhere in the record list leaves the
hostname set unchanged (and the builder is total, so no error is raised). -/
theorem C10_empty_record_contributes_nothing (l1 l2 : List CrtshRecord)
    (domain : String) (r : CrtshRecord)
    (h : r.name_value = none ∨ r.name_value = some "") :
    build_hostnames (l1 ++ r :: l2) domain = build_hostnames (l1 ++ l2) domain := by
  show List.foldl _ _ (l1 ++ r :: l2) = List.foldl _ _ (l1 ++ l2)
  rw [List.foldl_append, List.foldl_append, List.foldl_cons]
  congr 1
  rcases h with h | h <;> rw [h] <;> rfl

/-- C10 witness: appending a field-less record and an empty-string record
to a one-record list does not change the hostname set. -/
theorem C10_empty_record_contributes_nothing_witness :
    build_hostnames ([⟨some "a.example.com"⟩] ++ (⟨none⟩ : CrtshRecord) :: []) "example.com"
      = build_hostnames ([⟨some "a.example.com"⟩] ++ []) "example.com" :=
  C10_empty_record_contributes_nothing [⟨some "a.example.com"⟩] [] "example.com" ⟨none⟩
    (Or.inl rfl)

/-- C8: when the crt.sh lookup returns no records the run ends at once
with the single explanatory message; no probe is issued and no partition
is produced. -/
theorem C8_no_data_aborts (domain : String) (net : String → FetchOutcome)
    (completions : List (String × ℚ)) :
    main_run domain [] net completions
      = (RunOutcome.sourceError no_data_message, []) := rfl

end SubdomainFinder
